import Mathlib

/-!
Shallow embedding of the commission-lifecycle and messaging subsystem of the
calayo-clothing-solid repository, together with theorems checking the
natural-language specification against it.

Each definition is translated from one source function of the repository:
  - `validateForm`, `submitCommission`, `handleSubmit` from
    src/routes/commissions.tsx;
  - `fetchCommission`, `updateCommission`, `editCommissionFlow` from
    src/routes/profile/orders/edit/[id].tsx;
  - `updateCommissionStatus`, `adminStatusFlow` from
    src/routes/admin/orders/[id].tsx;
  - `cancelCommission`, `ownerCancelFlow` from the user-facing commission
    details page (src/unnamed/part_006);
  - `applyRead`, `markMessageRead`, `fetchMessagesEffect`, `sendMessage`,
    `subscriptionYield`, `subscriptionRemote` from src/components/MessageChat.tsx;
  - `saveMeasurements`, `fetchProfileMeasurements`, `loadMeasurements` from
    src/components/ProfileMeasurements.tsx and
    src/api/user/fetchProfileMeasurements.tsx.

The hosted relational store is modelled as a list of rows in insertion order;
an `update ... eq(key, v)` call is a map over that list, and the store's
`order('created_at')` operation is modelled relationally (`IsFetchResult`),
since the store promises a sort by the given key but no particular order
among rows whose keys compare equal.
-/

namespace Calayo

/-- Body measurements, six decimal-inch fields (JS numbers modelled as ℚ). -/
structure Measurements where
  chest : ℚ
  waist : ℚ
  hips : ℚ
  length : ℚ
  inseam : ℚ
  shoulders : ℚ
deriving DecidableEq, Repr

/-- The `CommissionFormData` interface of src/routes/commissions.tsx. -/
structure CommissionFormData where
  _id : String
  status : String
  garmentType : String
  measurements : Measurements
  budget : String
  timeline : String
  details : String
  user_id : String
deriving DecidableEq, Repr

/-- The row shape inserted into the `commissions` table by `submitCommission`. -/
structure SubmissionData where
  status : String
  garment_type : String
  measurements : Measurements
  budget : String
  timeline : String
  details : String
  user_id : String
deriving DecidableEq, Repr

/-- The `validateForm` function shared verbatim by src/routes/commissions.tsx and
src/routes/profile/orders/edit/[id].tsx: builds the `newErrors` record in source
order.  A JS falsy test `!x` on a string is `x = ""`, and `!n || n <= 0` on a
number collapses to `n ≤ 0` over ℚ (no NaN). -/
def validateForm (f : CommissionFormData) : List (String × String) :=
  (if f.garmentType = "" then [("garmentType", "Please select a garment type")] else [])
  ++ (if f.budget = "" then [("budget", "Please select a budget range")] else [])
  ++ (if f.timeline = "" then [("timeline", "Please select a timeline")] else [])
  ++ (if f.details = "" then [("details", "Please provide additional details")] else [])
  ++ (if f.garmentType = "shirt" ∨ f.garmentType = "jacket" then
        (if f.measurements.chest ≤ 0 then [("measurements.chest", "Required")] else [])
        ++ (if f.measurements.shoulders ≤ 0 then [("measurements.shoulders", "Required")] else [])
      else if f.garmentType = "pants" then
        (if f.measurements.waist ≤ 0 then [("measurements.waist", "Required")] else [])
        ++ (if f.measurements.hips ≤ 0 then [("measurements.hips", "Required")] else [])
        ++ (if f.measurements.length ≤ 0 then [("measurements.length", "Required")] else [])
        ++ (if f.measurements.inseam ≤ 0 then [("measurements.inseam", "Required")] else [])
      else [])

/-- The `submissionData` object built inside `submitCommission`: a field-for-field
rename of the form data into the PostgreSQL row shape. -/
def submitCommission (d : CommissionFormData) : SubmissionData :=
  { status := d.status
    garment_type := d.garmentType
    measurements := d.measurements
    budget := d.budget
    timeline := d.timeline
    details := d.details
    user_id := d.user_id }

/-- The `handleSubmit` flow of src/routes/commissions.tsx: validate, then insert
the form spread with `status := "Pending"` and the authenticated user id.
Returns the inserted row, or `none` when validation stops the submission. -/
def handleSubmit (f : CommissionFormData) (userId : String) : Option SubmissionData :=
  if validateForm f = [] then
    some (submitCommission { f with status := "Pending", user_id := userId })
  else none

/-- ASCII lowering of a string, character by character; models the
JavaScript `toLowerCase()` call on the status strings. -/
def toLowerStr (s : String) : String := String.mk (s.data.map Char.toLower)

/-- A row of the `commissions` table (the `Commission` interface of the
order-details pages). -/
structure Commission where
  id : String
  status : String
  garment_type : String
  measurements : Measurements
  budget : String
  timeline : String
  details : String
  user_id : String
  created_at : Nat
  updated_at : Nat
deriving DecidableEq, Repr

/-- A Supabase `update(g).eq('id', cid)` call on the commissions table: rewrite
exactly the rows whose id matches, touching only the columns `g` names. -/
def updateWhere (db : List Commission) (cid : String) (g : Commission → Commission) :
    List Commission :=
  db.map (fun r => if r.id = cid then g r else r)

/-- Error taxonomy of the owner edit page: each constructor tags one `throw`
site of `fetchCommission` in src/routes/profile/orders/edit/[id].tsx, plus the
validation stop of `updateCommission`. -/
inductive EditError where
  | notFound
  | permission
  | stateError
  | validation
deriving DecidableEq, Repr

/-- Mapping of database fields to form fields done at the end of
`fetchCommission` in the edit page. -/
def commissionToForm (r : Commission) : CommissionFormData :=
  { _id := r.id
    status := r.status
    garmentType := r.garment_type
    measurements := r.measurements
    budget := r.budget
    timeline := r.timeline
    details := r.details
    user_id := r.user_id }

/-- The `fetchCommission` guard chain of src/routes/profile/orders/edit/[id].tsx:
`.single()` lookup, ownership check, then the case-insensitive
"only pending commissions can be edited" check. -/
def fetchCommission (db : List Commission) (userId cid : String) :
    Except EditError CommissionFormData :=
  match db.find? (fun r => r.id == cid) with
  | none => .error .notFound
  | some data =>
    if data.user_id ≠ userId then .error .permission
    else if toLowerStr data.status ≠ "pending" then .error .stateError
    else .ok (commissionToForm data)

/-- The `submissionData` update of `updateCommission` in the edit page: rewrites
the five content columns and re-sends the status, with no `updated_at` column in
the payload. -/
def updateCommission (db : List Commission) (cid : String) (f : CommissionFormData) :
    List Commission :=
  updateWhere db cid (fun r =>
    { r with
      garment_type := f.garmentType
      measurements := f.measurements
      budget := f.budget
      timeline := f.timeline
      details := f.details
      status := f.status })

/-- The edits a user can make in the edit form before saving: each present field
replaces the loaded value (the form handlers never touch `_id` or `status`). -/
structure EditPatch where
  garmentType : Option String
  measurements : Option Measurements
  budget : Option String
  timeline : Option String
  details : Option String
deriving DecidableEq, Repr

def applyPatch (f : CommissionFormData) (p : EditPatch) : CommissionFormData :=
  { f with
    garmentType := p.garmentType.getD f.garmentType
    measurements := p.measurements.getD f.measurements
    budget := p.budget.getD f.budget
    timeline := p.timeline.getD f.timeline
    details := p.details.getD f.details }

/-- The owner edit flow of src/routes/profile/orders/edit/[id].tsx run end to
end: `fetchCommission` loads and gates the form, the user edits it, and
`updateCommission` validates and saves, keeping the original status.  Returns
the resulting table and the error that stopped the flow, if any. -/
def editCommissionFlow (db : List Commission) (userId cid : String) (p : EditPatch) :
    List Commission × Option EditError :=
  match fetchCommission db userId cid with
  | .error e => (db, some e)
  | .ok form =>
    let form2 := applyPatch form p
    if validateForm form2 = [] then
      (updateCommission db form2._id { form2 with status := form.status }, none)
    else (db, some .validation)

/-- Error taxonomy of the admin order page (src/routes/admin/orders/[id].tsx):
`permission` tags the admin-identity throw in `fetchCommissionDetails`. -/
inductive AdminError where
  | permission
deriving DecidableEq, Repr

/-- The `updateCommissionStatus` call of src/routes/admin/orders/[id].tsx:
sets the status column and `updated_at := now` on the matching row. -/
def updateCommissionStatus (db : List Commission) (cid newStatus : String) (now : Nat) :
    List Commission :=
  updateWhere db cid (fun r => { r with status := newStatus, updated_at := now })

/-- The admin page flow: `fetchCommissionDetails` rejects any user whose id is
not the configured admin id before `updateCommissionStatus` can run. -/
def adminStatusFlow (db : List Commission) (userId adminId cid newStatus : String)
    (now : Nat) : Except AdminError (List Commission) :=
  if userId ≠ adminId then .error .permission
  else .ok (updateCommissionStatus db cid newStatus now)

/-- The `cancelCommission` call of the user order-details page
(src/unnamed/part_006): sets only the status column to "Cancelled". -/
def cancelCommission (db : List Commission) (cid : String) : List Commission :=
  updateWhere db cid (fun r => { r with status := "Cancelled" })

/-- The `disabled` condition of the Cancel button on the user order-details
page: cancellation is not invocable on a Cancelled or Completed commission. -/
def cancelDisabled (r : Commission) : Bool :=
  r.status == "Cancelled" || r.status == "Completed"

/-- The owner cancellation flow of src/unnamed/part_006 run end to end:
`fetchCommissionDetails` gates on ownership, the disabled Cancel button gates on
terminal status, then `cancelCommission` runs. -/
def ownerCancelFlow (db : List Commission) (userId cid : String) :
    Except EditError (List Commission) :=
  match db.find? (fun r => r.id == cid) with
  | none => .error .notFound
  | some data =>
    if data.user_id ≠ userId then .error .permission
    else if cancelDisabled data then .error .stateError
    else .ok (cancelCommission db cid)

/-- A row of the `messages` table (the `Message` interface of
src/components/MessageChat.tsx, without the display-only `sender_name`). -/
structure Message where
  id : String
  commission_id : String
  sender_id : String
  content : String
  created_at : Nat
  read : Bool
deriving DecidableEq, Repr

/-- Appending an insert to the `messages` table; the store keeps rows in
insertion order. -/
def postMessage (db : List Message) (m : Message) : List Message := db ++ [m]

/-- The `newMsg` insert of `sendMessage` in MessageChat.tsx: a fresh row for the
commission with `read := false`. -/
def sendMessage (db : List Message) (mid cid senderId content : String) (now : Nat) :
    List Message :=
  postMessage db
    { id := mid, commission_id := cid, sender_id := senderId, content := content,
      created_at := now, read := false }

/-- Ascending order on the `created_at` column. -/
def SortedByCreated (l : List Message) : Prop :=
  l.Sorted (fun a b => a.created_at ≤ b.created_at)

instance : DecidablePred SortedByCreated := fun l =>
  inferInstanceAs (Decidable (l.Pairwise _))

/-- The contract of the `fetchMessages` query
`.eq('commission_id', cid).order('created_at', ascending)` against the hosted
store: the result holds exactly the commission's rows, sorted by `created_at`;
the store fixes no order among rows whose `created_at` values are equal. -/
def IsFetchResult (db : List Message) (cid : String) (result : List Message) : Prop :=
  result.Perm (db.filter (fun m => m.commission_id == cid)) ∧ SortedByCreated result

/-- One `update({read: true}).eq('id', mid)` row rewrite. -/
def applyRead (mid : String) (m : Message) : Message :=
  if m.id = mid then { m with read := true } else m

/-- The `markRead` write issued by MessageChat.tsx for one message id. -/
def markMessageRead (db : List Message) (mid : String) : List Message :=
  db.map (applyRead mid)

/-- The `unreadMessages` filter of `fetchMessages`: rows of the fetched
commission that are unread and not authored by the current user. -/
def unreadFrom (rows : List Message) (uid : String) : List Message :=
  rows.filter (fun m => !m.read && m.sender_id != uid)

/-- The write-back effect of `fetchMessages` on the `messages` table: one
`markMessageRead` per unread row of the commission not sent by the viewer. -/
def fetchMessagesEffect (db : List Message) (cid uid : String) : List Message :=
  (unreadFrom (db.filter (fun m => m.commission_id == cid)) uid).foldl
    (fun d m => markMessageRead d m.id) db

/-- Accumulated effect of a sequence of `markMessageRead` calls on one row. -/
def markFold (us : List Message) (x : Message) : Message :=
  us.foldl (fun y u => applyRead u.id y) x

/-- The realtime handler of `setupMessageSubscription`: an INSERT event is
appended to the local message list only when its sender is not the current
user. -/
def subscriptionYield (uid : String) (msg : Message) : List Message :=
  if msg.sender_id == uid then [] else [msg]

/-- Messages delivered to the local list by a subscription processing a stream
of INSERT events, one event per inserted row. -/
def subscriptionYields (uid : String) (events : List Message) : List Message :=
  events.foldr (fun e acc => subscriptionYield uid e ++ acc) []

/-- The remote write of the subscription handler: a delivered message (sender
not the current user) is immediately marked read; the handler's own-message
branch issues no write. -/
def subscriptionRemote (db : List Message) (uid : String) (msg : Message) :
    List Message :=
  if msg.sender_id == uid then db else markMessageRead db msg.id

/-- The `UserMeasurements` interface of src/api/user/fetchProfileMeasurements.tsx:
all six fields optional. -/
structure UserMeasurements where
  chest : Option ℚ
  waist : Option ℚ
  hips : Option ℚ
  length : Option ℚ
  inseam : Option ℚ
  shoulders : Option ℚ
deriving DecidableEq, Repr

/-- A row of the `profiles` table as the code addresses it: the `measurements`
JSON column read by `fetchProfileMeasurements` and written by the server-side
save/clear APIs, and the six scalar columns written by the
ProfileMeasurements component's direct update. -/
structure ProfileRow where
  id : String
  measurements : Option UserMeasurements
  chest : Option ℚ
  waist : Option ℚ
  hips : Option ℚ
  length : Option ℚ
  inseam : Option ℚ
  shoulders : Option ℚ
  updated_at : Nat
deriving DecidableEq, Repr

inductive FetchError where
  | rowNotFound
deriving DecidableEq, Repr

def emptyUserMeasurements : UserMeasurements :=
  { chest := none, waist := none, hips := none, length := none,
    inseam := none, shoulders := none }

/-- The `fetchProfileMeasurements` server function: reads the `measurements`
column of the user's profile row and returns it, or the empty object when the
column is null. -/
def fetchProfileMeasurements (db : List ProfileRow) (userId : String) :
    Except FetchError UserMeasurements :=
  match db.find? (fun r => r.id == userId) with
  | none => .error .rowNotFound
  | some row =>
    match row.measurements with
    | some m => .ok m
    | none => .ok emptyUserMeasurements

/-- A JS `x || null` on a number: 0 becomes null. -/
def orNull (q : ℚ) : Option ℚ := if q = 0 then none else some q

/-- The `saveMeasurements` update of src/components/ProfileMeasurements.tsx:
writes `updated_at` and the six scalar columns (each `value || null`) of the
user's profile row; the `measurements` JSON column is not in the payload. -/
def saveMeasurements (db : List ProfileRow) (userId : String) (s : Measurements)
    (now : Nat) : List ProfileRow :=
  db.map (fun r =>
    if r.id = userId then
      { r with
        updated_at := now
        chest := orNull s.chest
        waist := orNull s.waist
        hips := orNull s.hips
        length := orNull s.length
        inseam := orNull s.inseam
        shoulders := orNull s.shoulders }
    else r)

/-- The `loadMeasurements` mapping of ProfileMeasurements.tsx: each field of the
fetched object defaulted to 0 with `|| 0`. -/
def loadMeasurements (db : List ProfileRow) (userId : String) : Option Measurements :=
  match fetchProfileMeasurements db userId with
  | .error _ => none
  | .ok m =>
    some
      { chest := m.chest.getD 0, waist := m.waist.getD 0, hips := m.hips.getD 0,
        length := m.length.getD 0, inseam := m.inseam.getD 0,
        shoulders := m.shoulders.getD 0 }

/-! ## Helper lemmas -/

theorem find?_updateWhere (db : List Commission) (cid : String)
    (g : Commission → Commission) (hg : ∀ x, (g x).id = x.id) :
    (updateWhere db cid g).find? (fun x => x.id == cid)
      = (db.find? (fun x => x.id == cid)).map g := by
  induction db with
  | nil => rfl
  | cons d t ih =>
    simp only [updateWhere, List.map_cons] at *
    by_cases hd : d.id = cid
    · rw [if_pos hd]
      rw [List.find?_cons_of_pos _ (by simp [hg, hd])]
      rw [List.find?_cons_of_pos _ (by simp [hd])]
      rfl
    · rw [if_neg hd]
      rw [List.find?_cons_of_neg _ (by simp [hd])]
      rw [List.find?_cons_of_neg _ (by simp [hd])]
      exact ih

theorem find?_updateCommission (db : List Commission) (cid : String)
    (f : CommissionFormData) (r : Commission)
    (hfind : db.find? (fun x => x.id == cid) = some r) :
    (updateCommission db cid f).find? (fun x => x.id == cid)
      = some { r with
          garment_type := f.garmentType, measurements := f.measurements,
          budget := f.budget, timeline := f.timeline, details := f.details,
          status := f.status } := by
  have h := find?_updateWhere db cid
    (fun x =>
      { x with
        garment_type := f.garmentType, measurements := f.measurements,
        budget := f.budget, timeline := f.timeline, details := f.details,
        status := f.status }) (fun _ => rfl)
  rw [hfind] at h
  simpa only [Option.map_some'] using h

/-! ## C1: a successful create always inserts status "Pending" -/

/-- C1: for every commission creation request, whatever status string the form
data carries, the row a successful `handleSubmit` inserts has status
"Pending". -/
theorem create_always_pending (f : CommissionFormData) (uid : String)
    (payload : SubmissionData) (h : handleSubmit f uid = some payload) :
    payload.status = "Pending" := by
  unfold handleSubmit at h
  split at h
  · cases h
    rfl
  · cases h

def c1form : CommissionFormData :=
  { _id := "", status := "Cancelled", garmentType := "shirt",
    measurements :=
      { chest := 40, waist := 0, hips := 0, length := 0, inseam := 0, shoulders := 18 },
    budget := "300-500", timeline := "1-2weeks", details := "navy linen shirt",
    user_id := "attacker" }

/-- Witness for C1: a concrete valid form that supplies status "Cancelled" is
inserted with status "Pending". -/
theorem create_always_pending_witness :
    handleSubmit c1form "u9"
        = some (submitCommission { c1form with status := "Pending", user_id := "u9" })
      ∧ (submitCommission { c1form with status := "Pending", user_id := "u9" }).status
        = "Pending" :=
  ⟨by decide,
   create_always_pending c1form "u9"
     (submitCommission { c1form with status := "Pending", user_id := "u9" }) (by decide)⟩

/-! ## C2: owner edit of a non-Pending commission fails with a state error -/

/-- C2: for a commission whose status is In Progress, Completed or Cancelled,
the owner's edit flow stops with the state error and the table is returned
unchanged, whatever the patch. -/
theorem nonpending_edit_rejected (db : List Commission) (r : Commission)
    (owner cid : String) (p : EditPatch)
    (hfind : db.find? (fun x => x.id == cid) = some r)
    (hown : r.user_id = owner)
    (hst : r.status = "In Progress" ∨ r.status = "Completed" ∨ r.status = "Cancelled") :
    editCommissionFlow db owner cid p = (db, some EditError.stateError) := by
  have hf : fetchCommission db owner cid = .error .stateError := by
    simp only [fetchCommission, hfind]
    rw [if_neg (by simp [hown])]
    rcases hst with h | h | h <;> rw [h] <;> rw [if_pos (by decide)]
  unfold editCommissionFlow
  rw [hf]

def c2rec : Commission :=
  { id := "c1", status := "Completed", garment_type := "shirt",
    measurements :=
      { chest := 40, waist := 0, hips := 0, length := 0, inseam := 0, shoulders := 18 },
    budget := "300-500", timeline := "1-2weeks", details := "navy", user_id := "u1",
    created_at := 1, updated_at := 2 }

def emptyPatch : EditPatch :=
  { garmentType := none, measurements := none, budget := none, timeline := none,
    details := none }

/-- Witness for C2 at a concrete Completed commission. -/
theorem nonpending_edit_rejected_witness :
    editCommissionFlow [c2rec] "u1" "c1" emptyPatch
      = ([c2rec], some EditError.stateError) :=
  nonpending_edit_rejected [c2rec] c2rec "u1" "c1" emptyPatch (by decide) rfl
    (Or.inr (Or.inl rfl))

/-! ## C3: pants validation reports every violated measurement field -/

/-- C3: for a pants form, each of waist, hips, length and inseam that is ≤ 0
contributes its own entry to the validation error record (all at once, not only
the first), and any violation makes the create flow stop without inserting. -/
theorem pants_validation_all_fields (f : CommissionFormData)
    (hg : f.garmentType = "pants") :
    (f.measurements.waist ≤ 0 → ("measurements.waist", "Required") ∈ validateForm f)
    ∧ (f.measurements.hips ≤ 0 → ("measurements.hips", "Required") ∈ validateForm f)
    ∧ (f.measurements.length ≤ 0 → ("measurements.length", "Required") ∈ validateForm f)
    ∧ (f.measurements.inseam ≤ 0 → ("measurements.inseam", "Required") ∈ validateForm f)
    ∧ ((f.measurements.waist ≤ 0 ∨ f.measurements.hips ≤ 0
        ∨ f.measurements.length ≤ 0 ∨ f.measurements.inseam ≤ 0)
        → ∀ uid, handleSubmit f uid = none) := by
  have hw : f.measurements.waist ≤ 0
      → ("measurements.waist", "Required") ∈ validateForm f := by
    intro h
    simp [validateForm, hg, h]
  have hh : f.measurements.hips ≤ 0
      → ("measurements.hips", "Required") ∈ validateForm f := by
    intro h
    simp [validateForm, hg, h]
  have hl : f.measurements.length ≤ 0
      → ("measurements.length", "Required") ∈ validateForm f := by
    intro h
    simp [validateForm, hg, h]
  have hi : f.measurements.inseam ≤ 0
      → ("measurements.inseam", "Required") ∈ validateForm f := by
    intro h
    simp [validateForm, hg, h]
  refine ⟨hw, hh, hl, hi, ?_⟩
  intro hd uid
  have hne : validateForm f ≠ [] := by
    rcases hd with h | h | h | h
    · exact List.ne_nil_of_mem (hw h)
    · exact List.ne_nil_of_mem (hh h)
    · exact List.ne_nil_of_mem (hl h)
    · exact List.ne_nil_of_mem (hi h)
  unfold handleSubmit
  rw [if_neg hne]

def c3form : CommissionFormData :=
  { _id := "", status := "", garmentType := "pants",
    measurements :=
      { chest := 0, waist := 0, hips := -1, length := 0, inseam := 0, shoulders := 0 },
    budget := "100-300", timeline := "flexible", details := "jeans", user_id := "" }

/-- Witness for C3 at a concrete pants form violating all four fields. -/
theorem pants_validation_all_fields_witness :
    ("measurements.waist", "Required") ∈ validateForm c3form
    ∧ ("measurements.hips", "Required") ∈ validateForm c3form
    ∧ ("measurements.length", "Required") ∈ validateForm c3form
    ∧ ("measurements.inseam", "Required") ∈ validateForm c3form
    ∧ handleSubmit c3form "u1" = none :=
  ⟨(pants_validation_all_fields c3form rfl).1 (by decide),
   (pants_validation_all_fields c3form rfl).2.1 (by decide),
   (pants_validation_all_fields c3form rfl).2.2.1 (by decide),
   (pants_validation_all_fields c3form rfl).2.2.2.1 (by decide),
   (pants_validation_all_fields c3form rfl).2.2.2.2 (Or.inl (by decide)) "u1"⟩

/-! ## C9: the owner's only status change is cancellation from a live status -/

/-- C9: for a commission in one of the four statuses, the owner cancellation
flow succeeds exactly when the status is Pending or In Progress, and then the
only change to the record is status := "Cancelled"; a non-admin actor cannot
reach the admin status transition; and a successful owner content edit never
changes the status. -/
theorem owner_single_transition (db : List Commission) (r : Commission)
    (owner adminId cid ns : String) (now : Nat) (p : EditPatch)
    (hfind : db.find? (fun x => x.id == cid) = some r)
    (hown : r.user_id = owner)
    (henum : r.status = "Pending" ∨ r.status = "In Progress"
      ∨ r.status = "Completed" ∨ r.status = "Cancelled") :
    ((ownerCancelFlow db owner cid).isOk = true
        ↔ (r.status = "Pending" ∨ r.status = "In Progress"))
    ∧ (∀ db2, ownerCancelFlow db owner cid = .ok db2 →
        db2.find? (fun x => x.id == cid) = some { r with status := "Cancelled" })
    ∧ (∀ uid, uid ≠ adminId →
        adminStatusFlow db uid adminId cid ns now = .error AdminError.permission)
    ∧ (∀ db2, editCommissionFlow db owner cid p = (db2, none) →
        (db2.find? (fun x => x.id == cid)).map Commission.status = some r.status) := by
  have hid : r.id = cid := by
    have := List.find?_some hfind
    simpa using this
  have hflow : ownerCancelFlow db owner cid
      = (if cancelDisabled r then .error .stateError
         else .ok (cancelCommission db cid)) := by
    simp only [ownerCancelFlow, hfind]
    rw [if_neg (by simp [hown])]
  have hcanc := find?_updateWhere db cid (fun x => { x with status := "Cancelled" })
    (fun _ => rfl)
  refine ⟨?_, ?_, ?_, ?_⟩
  · rcases henum with h | h | h | h <;>
      simp [hflow, cancelDisabled, h, Except.isOk, Except.toBool]
  · intro db2 h2
    rw [hflow] at h2
    by_cases hd : cancelDisabled r
    · rw [if_pos hd] at h2
      cases h2
    · rw [if_neg hd] at h2
      cases h2
      rw [hfind] at hcanc
      simpa [cancelCommission] using hcanc
  · intro uid h
    unfold adminStatusFlow
    rw [if_pos h]
  · intro db2 h2
    rcases henum with h | h | h | h
    · have hf : fetchCommission db owner cid = .ok (commissionToForm r) := by
        simp only [fetchCommission, hfind]
        rw [if_neg (by simp [hown]), if_neg (by rw [h]; decide)]
      have hflow2 : editCommissionFlow db owner cid p
          = (if validateForm (applyPatch (commissionToForm r) p) = [] then
              (updateCommission db (applyPatch (commissionToForm r) p)._id
                { applyPatch (commissionToForm r) p
                    with status := (commissionToForm r).status },
               none)
             else (db, some .validation)) := by
        unfold editCommissionFlow
        rw [hf]
      rw [hflow2] at h2
      by_cases hv : validateForm (applyPatch (commissionToForm r) p) = []
      · rw [if_pos hv] at h2
        have h21 := congrArg Prod.fst h2
        simp only at h21
        have hcid : (applyPatch (commissionToForm r) p)._id = cid := hid
        rw [hcid] at h21
        rw [← h21]
        rw [find?_updateCommission db cid _ r hfind]
        simp only [Option.map_some']
        rfl
      · rw [if_neg hv] at h2
        have h22 := congrArg Prod.snd h2
        simp at h22
    all_goals
      have hf : fetchCommission db owner cid = .error .stateError := by
        simp only [fetchCommission, hfind]
        rw [if_neg (by simp [hown])]
        rw [h, if_pos (by decide)]
      have hflow2 : editCommissionFlow db owner cid p = (db, some .stateError) := by
        unfold editCommissionFlow
        rw [hf]
      rw [hflow2] at h2
      have h22 := congrArg Prod.snd h2
      simp at h22

def c9rec : Commission :=
  { id := "c1", status := "In Progress", garment_type := "shirt",
    measurements :=
      { chest := 40, waist := 0, hips := 0, length := 0, inseam := 0, shoulders := 18 },
    budget := "300-500", timeline := "1-2weeks", details := "navy", user_id := "u1",
    created_at := 1, updated_at := 2 }

/-- Witness for C9: on a concrete In Progress commission the owner's
cancellation is permitted, and a non-admin actor is turned away from the admin
status transition. -/
theorem owner_single_transition_witness :
    (ownerCancelFlow [c9rec] "u1" "c1").isOk = true
    ∧ adminStatusFlow [c9rec] "mallory" "admin1" "c1" "Completed" 9
      = .error AdminError.permission :=
  ⟨(owner_single_transition [c9rec] c9rec "u1" "admin1" "c1" "Completed" 9 emptyPatch
      (by decide) rfl (Or.inr (Or.inl rfl))).1.mpr (Or.inr rfl),
   (owner_single_transition [c9rec] c9rec "u1" "admin1" "c1" "Completed" 9 emptyPatch
      (by decide) rfl (Or.inr (Or.inl rfl))).2.2.1 "mallory" (by decide)⟩

/-! ## C8: which commission mutations maintain updated_at -/

def c8rec : Commission :=
  { id := "c1", status := "Pending", garment_type := "shirt",
    measurements :=
      { chest := 40, waist := 0, hips := 0, length := 0, inseam := 0, shoulders := 18 },
    budget := "300-500", timeline := "1-2weeks", details := "navy", user_id := "u1",
    created_at := 3, updated_at := 5 }

/-- Counterexample to C8 as stated: the owner cancellation mutates the record
(status becomes "Cancelled") yet its update payload carries no `updated_at`
column, so the field keeps its pre-mutation value 5 instead of the mutation
time. -/
theorem mutation_updated_at_cex :
    (cancelCommission [c8rec] "c1").map Commission.status = ["Cancelled"]
    ∧ (cancelCommission [c8rec] "c1").map Commission.updated_at = [5]
    ∧ c8rec.updated_at = 5 := by
  refine ⟨by decide, by decide, rfl⟩

/-- C8 amended: the admin status transition sets `updated_at` to the mutation
time, while the owner cancellation and the owner content update leave
`updated_at` unchanged (their payloads omit the column). -/
theorem mutation_updated_at (db : List Commission) (r : Commission)
    (cid ns : String) (now : Nat) (f : CommissionFormData)
    (hfind : db.find? (fun x => x.id == cid) = some r) :
    (updateCommissionStatus db cid ns now).find? (fun x => x.id == cid)
      = some { r with status := ns, updated_at := now }
    ∧ (cancelCommission db cid).find? (fun x => x.id == cid)
      = some { r with status := "Cancelled" }
    ∧ ((updateCommission db cid f).find? (fun x => x.id == cid)).map
        Commission.updated_at = some r.updated_at := by
  have h1 := find?_updateWhere db cid
    (fun x => { x with status := ns, updated_at := now }) (fun _ => rfl)
  have h2 := find?_updateWhere db cid (fun x => { x with status := "Cancelled" })
    (fun _ => rfl)
  rw [hfind] at h1 h2
  refine ⟨by simpa only [updateCommissionStatus, Option.map_some'] using h1,
    by simpa only [cancelCommission, Option.map_some'] using h2, ?_⟩
  rw [find?_updateCommission db cid f r hfind]
  simp only [Option.map_some']

/-- Witness for the amended C8 at a concrete record. -/
theorem mutation_updated_at_witness :
    (updateCommissionStatus [c8rec] "c1" "In Progress" 9).find?
        (fun x => x.id == "c1")
      = some { c8rec with status := "In Progress", updated_at := 9 }
    ∧ (cancelCommission [c8rec] "c1").find? (fun x => x.id == "c1")
      = some { c8rec with status := "Cancelled" }
    ∧ ((updateCommission [c8rec] "c1" c1form).find? (fun x => x.id == "c1")).map
        Commission.updated_at = some c8rec.updated_at :=
  mutation_updated_at [c8rec] c8rec "c1" "In Progress" 9 c1form (by decide)

/-! ## C7: marking a message read is idempotent and monotone -/

/-- C7: a second `markMessageRead` on the same id is a no-op (the write is a
total function, so no error either time), the read flag after one call is the
old flag or-ed with the id match — so it only ever moves from false to true —
and a matching message is read after one call. -/
theorem mark_read_idempotent (db : List Message) (mid : String) :
    markMessageRead (markMessageRead db mid) mid = markMessageRead db mid
    ∧ (∀ m : Message, (applyRead mid m).read = (m.read || (m.id == mid)))
    ∧ (∀ m : Message, m.id = mid → (applyRead mid m).read = true) := by
  have happ : ∀ m, applyRead mid (applyRead mid m) = applyRead mid m := by
    intro m
    by_cases h : m.id = mid
    · simp [applyRead, h]
    · simp [applyRead, h]
  refine ⟨?_, ?_, ?_⟩
  · simp only [markMessageRead, List.map_map]
    congr 1
    funext m
    exact happ m
  · intro m
    by_cases h : m.id = mid
    · simp [applyRead, h]
    · simp [applyRead, h]
  · intro m h
    simp [applyRead, h]

def c7msg : Message :=
  { id := "m1", commission_id := "c1", sender_id := "admin1", content := "hi",
    created_at := 4, read := false }

/-- Witness for C7 at a concrete unread message. -/
theorem mark_read_idempotent_witness :
    markMessageRead (markMessageRead [c7msg] "m1") "m1" = markMessageRead [c7msg] "m1"
    ∧ (applyRead "m1" c7msg).read = true :=
  ⟨(mark_read_idempotent [c7msg] "m1").1,
   (mark_read_idempotent [c7msg] "m1").2.2 c7msg rfl⟩

/-! ## C6: the subscription drops the subscriber's own messages -/

/-- C6: a subscription held by `uid` never appends a message sent by `uid` to
the local list, and a single insert event from any other sender is delivered
exactly once. -/
theorem subscription_ignores_own (uid : String) :
    (∀ (events : List Message) (msg : Message),
        msg ∈ subscriptionYields uid events → msg.sender_id ≠ uid)
    ∧ (∀ msg : Message, msg.sender_id ≠ uid →
        subscriptionYields uid [msg] = [msg]
        ∧ (subscriptionYields uid [msg]).count msg = 1) := by
  constructor
  · intro events
    induction events with
    | nil =>
      intro msg hm
      cases hm
    | cons e t ih =>
      intro msg hm
      rcases List.mem_append.mp hm with h1 | h2
      · by_cases hs : e.sender_id = uid
        · simp [subscriptionYield, hs] at h1
        · simp [subscriptionYield, hs] at h1
          rw [h1]
          exact hs
      · exact ih msg h2
  · intro msg h
    have hy : subscriptionYields uid [msg] = [msg] := by
      simp [subscriptionYields, subscriptionYield, h]
    refine ⟨hy, ?_⟩
    rw [hy]
    simp [List.count_cons]

def c6own : Message :=
  { id := "m1", commission_id := "c1", sender_id := "u1", content := "mine",
    created_at := 4, read := false }

def c6admin : Message :=
  { id := "m2", commission_id := "c1", sender_id := "admin1", content := "reply",
    created_at := 5, read := false }

/-- Witness for C6: the admin's message is delivered once to u1 and u1's own
message is in no delivery of u1's subscription. -/
theorem subscription_ignores_own_witness :
    (subscriptionYields "u1" [c6admin]).count c6admin = 1
    ∧ (c6own ∈ subscriptionYields "u1" [c6own, c6admin] → c6own.sender_id ≠ "u1") :=
  ⟨((subscription_ignores_own "u1").2 c6admin (by decide)).2,
   (subscription_ignores_own "u1").1 [c6own, c6admin] c6own⟩

/-! ## C10: fetching and realtime delivery mark foreign messages read -/

theorem applyRead_id (mid : String) (m : Message) : (applyRead mid m).id = m.id := by
  unfold applyRead
  split <;> rfl

theorem markFold_cons (u : Message) (us : List Message) (x : Message) :
    markFold (u :: us) x = markFold us (applyRead u.id x) := rfl

theorem markFold_read_mono (us : List Message) (x : Message) (h : x.read = true) :
    (markFold us x).read = true := by
  induction us generalizing x with
  | nil => exact h
  | cons u t ih =>
    rw [markFold_cons]
    apply ih
    unfold applyRead
    split
    · rfl
    · exact h

theorem markFold_read_of_mem (us : List Message) (x : Message)
    (h : ∃ u ∈ us, u.id = x.id) : (markFold us x).read = true := by
  induction us generalizing x with
  | nil =>
    rcases h with ⟨u, hu, _⟩
    cases hu
  | cons u t ih =>
    rcases h with ⟨v, hv, hvx⟩
    rcases List.mem_cons.mp hv with rfl | hvt
    · rw [markFold_cons]
      apply markFold_read_mono
      unfold applyRead
      rw [if_pos hvx.symm]
    · rw [markFold_cons]
      apply ih
      exact ⟨v, hvt, by rw [applyRead_id]; exact hvx⟩

theorem foldl_markMessageRead (us : List Message) (db : List Message) :
    us.foldl (fun d m => markMessageRead d m.id) db = db.map (markFold us) := by
  induction us generalizing db with
  | nil =>
    rw [show markFold ([] : List Message) = id from rfl]
    simp
  | cons u t ih =>
    rw [List.foldl_cons, ih]
    simp only [markMessageRead, List.map_map]
    congr 1

/-- C10: the write-back of `fetchMessages` is one read-marking pass over the
table, after which every message of the commission not authored by the viewer
is read; and the realtime handler marks each delivered foreign message read on
arrival. -/
theorem fetch_marks_read (db : List Message) (cid uid : String) :
    fetchMessagesEffect db cid uid
      = db.map (markFold (unreadFrom (db.filter (fun m => m.commission_id == cid)) uid))
    ∧ (∀ m, m ∈ db → m.commission_id = cid → m.sender_id ≠ uid →
        (markFold (unreadFrom (db.filter (fun m => m.commission_id == cid)) uid) m).read
          = true)
    ∧ (∀ (db2 : List Message) (msg : Message), msg.sender_id ≠ uid →
        subscriptionRemote db2 uid msg = markMessageRead db2 msg.id) := by
  refine ⟨foldl_markMessageRead _ db, ?_, ?_⟩
  · intro m hm hc hs
    by_cases hr : m.read = true
    · exact markFold_read_mono _ _ hr
    · apply markFold_read_of_mem
      refine ⟨m, ?_, rfl⟩
      unfold unreadFrom
      simp [List.mem_filter, hm, hc, hs, hr]
  · intro db2 msg h
    unfold subscriptionRemote
    rw [if_neg (by simpa using h)]

def c10msg : Message :=
  { id := "m1", commission_id := "c1", sender_id := "admin1", content := "hello",
    created_at := 4, read := false }

/-- Witness for C10 at a concrete unread admin message viewed by u1. -/
theorem fetch_marks_read_witness :
    (markFold (unreadFrom ([c10msg].filter (fun m => m.commission_id == "c1")) "u1")
        c10msg).read = true
    ∧ subscriptionRemote [c10msg] "u1" c10msg = markMessageRead [c10msg] "m1" :=
  ⟨(fetch_marks_read [c10msg] "c1" "u1").2.1 c10msg (by decide) rfl (by decide),
   (fetch_marks_read [c10msg] "c1" "u1").2.2 [c10msg] c10msg (by decide)⟩

/-! ## C5: message listing order -/

theorem sorted_perm_unique (l₂ l₁ : List Message)
    (hp : l₂.Perm l₁)
    (hs : l₂.Sorted (fun a b => a.created_at ≤ b.created_at))
    (hd : l₁.Pairwise (fun a b => a.created_at < b.created_at)) : l₂ = l₁ := by
  induction l₂ generalizing l₁ with
  | nil => exact (List.Perm.eq_nil hp.symm).symm
  | cons x xs ih =>
    cases l₁ with
    | nil => exact absurd (List.Perm.eq_nil hp) (by simp)
    | cons y ys =>
      have hsx : ∀ b ∈ xs, x.created_at ≤ b.created_at :=
        (List.pairwise_cons.mp hs).1
      have hsxs := (List.pairwise_cons.mp hs).2
      have hdy : ∀ b ∈ ys, y.created_at < b.created_at :=
        (List.pairwise_cons.mp hd).1
      have hdys := (List.pairwise_cons.mp hd).2
      have hxy : x = y := by
        have hxmem : x ∈ y :: ys := hp.subset (List.mem_cons_self x xs)
        rcases List.mem_cons.mp hxmem with h | h
        · exact h
        · exfalso
          have h1 : y.created_at < x.created_at := hdy x h
          have hymem : y ∈ x :: xs := hp.symm.subset (List.mem_cons_self y ys)
          rcases List.mem_cons.mp hymem with h' | h'
          · rw [h'] at h1
            exact Nat.lt_irrefl _ h1
          · have h2 : x.created_at ≤ y.created_at := hsx y h'
            exact Nat.lt_irrefl _ (Nat.lt_of_lt_of_le h1 h2)
      subst hxy
      rw [ih ys hp.cons_inv hsxs hdys]

def c5A : Message :=
  { id := "a", commission_id := "c1", sender_id := "u1", content := "A",
    created_at := 1, read := false }

def c5B : Message :=
  { id := "b", commission_id := "c1", sender_id := "admin1", content := "B",
    created_at := 2, read := false }

def c5C : Message :=
  { id := "c", commission_id := "c1", sender_id := "u1", content := "C",
    created_at := 2, read := false }

def c5db : List Message := postMessage (postMessage (postMessage [] c5A) c5B) c5C

/-- Counterexample to C5 as stated: with B and C posted in that order but
carrying equal `created_at` values, the store's order-by contract also admits
the reply [A, C, B], so the query does not guarantee insertion order on ties. -/
theorem list_messages_order_cex :
    ¬ (∀ result, IsFetchResult c5db "c1" result → result = [c5A, c5B, c5C]) := by
  intro h
  have hvalid : IsFetchResult c5db "c1" [c5A, c5C, c5B] := ⟨by decide, by decide⟩
  have := h [c5A, c5C, c5B] hvalid
  exact absurd this (by decide)

/-- C5 amended: the query returns exactly the commission's messages sorted
ascending by `created_at`; when the three posted messages carry strictly
increasing timestamps every admissible reply is exactly [A, B, C], but equal
timestamps leave the relative order of the tied messages unspecified. -/
theorem list_messages_order (db : List Message) (cid : String) (A B C : Message)
    (hrows : db.filter (fun m => m.commission_id == cid) = [A, B, C])
    (hab : A.created_at < B.created_at) (hbc : B.created_at < C.created_at) :
    ∀ result, IsFetchResult db cid result → result = [A, B, C] := by
  intro result hres
  rcases hres with ⟨hperm, hsort⟩
  rw [hrows] at hperm
  apply sorted_perm_unique _ _ hperm hsort
  refine List.pairwise_cons.mpr ⟨?_, List.pairwise_cons.mpr ⟨?_, ?_⟩⟩
  · intro b hb
    rcases List.mem_cons.mp hb with h | h
    · rw [h]
      exact hab
    · rw [List.mem_singleton.mp h]
      exact Nat.lt_trans hab hbc
  · intro b hb
    rw [List.mem_singleton.mp hb]
    exact hbc
  · exact List.pairwise_singleton _ _

def c5C3 : Message :=
  { id := "c", commission_id := "c1", sender_id := "u1", content := "C",
    created_at := 3, read := false }

def c5db3 : List Message := postMessage (postMessage (postMessage [] c5A) c5B) c5C3

/-- Witness for the amended C5: with strictly increasing timestamps the only
admissible reply is the insertion order. -/
theorem list_messages_order_witness :
    IsFetchResult c5db3 "c1" [c5A, c5B, c5C3]
    ∧ [c5A, c5B, c5C3] = [c5A, c5B, c5C3] :=
  ⟨⟨by decide, by decide⟩,
   list_messages_order c5db3 "c1" c5A c5B c5C3 (by decide) (by decide) (by decide)
     [c5A, c5B, c5C3] ⟨by decide, by decide⟩⟩

/-! ## C4: measurement save / fetch round trip -/

def c4prior : UserMeasurements :=
  { chest := some 38, waist := some 30, hips := some 40, length := some 42,
    inseam := some 31, shoulders := some 18 }

def c4row : ProfileRow :=
  { id := "u1", measurements := some c4prior, chest := none, waist := none,
    hips := none, length := none, inseam := none, shoulders := none, updated_at := 0 }

def c4loaded : Measurements :=
  (loadMeasurements [c4row] "u1").getD
    { chest := 0, waist := 0, hips := 0, length := 0, inseam := 0, shoulders := 0 }

def c4state : Measurements := { c4loaded with chest := 40 }

/-- C4 evaluated at the failing input: the owner's prior measurements live in
the `measurements` JSON column; the component's save writes the six scalar
columns (chest becomes 40 there) and never the JSON column, so the read path
`fetchProfileMeasurements` still returns the prior object with chest = 38, not
the saved 40. -/
theorem measurements_roundtrip_bug :
    loadMeasurements [c4row] "u1"
      = some { chest := 38, waist := 30, hips := 40, length := 42, inseam := 31,
               shoulders := 18 }
    ∧ fetchProfileMeasurements (saveMeasurements [c4row] "u1" c4state 7) "u1"
      = .ok c4prior
    ∧ c4prior.chest = some 38
    ∧ (saveMeasurements [c4row] "u1" c4state 7).map ProfileRow.chest = [some 40] := by
  refine ⟨by decide, rfl, rfl, by decide⟩

end Calayo
